import Mathlib

/-!
Shallow embedding of the YMU settings store (`settings_manager.py` together
with the path constants of `paths.py`) and of the Lua script toggle service
(`lua_manager.py`).

Modelling conventions:
* A JSON value is the inductive `JVal`; JSON objects are association lists
  that keep insertion order, mirroring Python dicts.
* The file system is an association list from absolute path strings to a
  file content (`good` parsed JSON, or `bad` for an unparseable file)
  together with its modification time (a natural number).
* `SMState` is the mutable state of the `SettingsManager` singleton: the
  per-version document cache and the recorded modification times.
* Whether an OS write succeeds, and the modification time the OS assigns to
  a freshly written file, are inputs (`writeOk`, `newMtime`) to the
  operations that write.
* Python mutates the cached document in place inside `set_setting`; the
  embedding makes that aliasing explicit: whenever the settings file existed
  at read time, the document returned by `_get_settings_with_cache` is the
  cache entry itself, so the mutated document replaces the cache entry even
  when the subsequent disk write fails.
-/

namespace YMU

/-- JSON values as stored in a settings document.  Objects are association
lists of string keys, in insertion order, like Python dicts. -/
inductive JVal where
  | obj  : List (String × JVal) → JVal
  | bool : Bool → JVal
  | str  : String → JVal
  | num  : Int → JVal
  | null : JVal

/-- Python `isinstance(v, dict)`. -/
def JVal.isObj : JVal → Bool
  | .obj _ => true
  | _ => false

/-- Python `d[key]` read on a dict: first binding with the given key. -/
def assocLookup : List (String × JVal) → String → Option JVal
  | [], _ => none
  | (k, v) :: rest, key => if k = key then some v else assocLookup rest key

/-- Python `d[key] = v` on a dict: replace the binding in place, or append
a fresh binding at the end (insertion order). -/
def assocSet : List (String × JVal) → String → JVal → List (String × JVal)
  | [], key, v => [(key, v)]
  | (k, w) :: rest, key, v =>
      if k = key then (k, v) :: rest else (k, w) :: assocSet rest key v

/-- Python `s.split(sep)` for a one-character separator, on the character
list of the string.  `[] ↦ [""]`, and empty segments are kept. -/
def splitOnChar (sep : Char) : List Char → List String
  | [] => [""]
  | c :: cs =>
      let rest := splitOnChar sep cs
      if c = sep then "" :: rest
      else
        match rest with
        | r :: rs => String.mk (c :: r.data) :: rs
        | [] => [String.mk [c]]

/-- Python `key_path.split(".")` (the separator used throughout
`settings_manager.py` is always the one-character string `"."`). -/
def splitKeyPath (s : String) : List String := splitOnChar '.' s.data

/-- The key traversal of `get_setting`: follow the path; `none` when a
segment is absent (Python `KeyError`) or a non-final value on the way is not
a dict (Python `TypeError`).  Both exceptions are caught by `get_setting`. -/
def lookupPath : JVal → List String → Option JVal
  | v, [] => some v
  | .obj kvs, k :: ks =>
      match assocLookup kvs k with
      | some v => lookupPath v ks
      | none => none
  | _, _ :: _ => none

/-- The dict `set_setting` descends into at an intermediate segment:
`d[key]` when it is a dict, otherwise the fresh `{}` that
`d[key] = {}` installs (`if key not in d or not isinstance(d[key], dict)`). -/
def childFor (kvs : List (String × JVal)) (k : String) : JVal :=
  match assocLookup kvs k with
  | some (.obj c) => .obj c
  | _ => .obj []

/-- The key traversal of `set_setting`: walk the non-final segments,
replacing a missing or non-dict intermediate value with a fresh empty dict,
then assign the final key.  `none` when the value being traversed is not a
dict, which in Python raises inside the `try` and makes `set_setting`
return `False` (this can only happen at the root, before any mutation). -/
def setPath : JVal → List String → JVal → Option JVal
  | .obj kvs, [k], v => some (.obj (assocSet kvs k v))
  | .obj kvs, k :: k2 :: ks, v =>
      match setPath (childFor kvs k) (k2 :: ks) v with
      | some c2 => some (.obj (assocSet kvs k c2))
      | none => none
  | _, _, _ => none

/-- Test `listLeads p q`: `p` is an initial run of `q`, a key-path ancestor. -/
def listLeads : List String → List String → Bool
  | [], _ => true
  | _ :: _, [] => false
  | a :: as, b :: bs => a = b && listLeads as bs

/-- The condition under which `get_setting` falls back to the default:
some path segment is absent, or an intermediate value on the path is not a
mapping.  (Stated as in the spec; shown below to coincide with
`lookupPath · · = none`.) -/
def pathMissing : JVal → List String → Bool
  | _, [] => false
  | .obj kvs, k :: ks =>
      match assocLookup kvs k with
      | none => true
      | some v => pathMissing v ks
  | _, _ :: _ => true

/-- The two keys of the `SETTINGS_FILE_PATHS` / `_settings_cache` /
`_last_modified` dicts.  `_get_file_path` normalises every version string
into one of these two. -/
inductive VKey where
  | v1
  | v2
deriving DecidableEq

/-- Python `version_key = "v2" if yim_version == "v2" else "v1"`. -/
def normKey (yimVersion : String) : VKey :=
  if yimVersion = "v2" then .v2 else .v1

/-- Dict `SETTINGS_FILE_PATHS`, built from `paths.py`:
`YIMMENU_SETTINGS_FILE_PATH = <APPDATA>/YimMenu/settings.json` and
`YIMMENUV2_SETTINGS_FILE_PATH = <APPDATA>/YimMenuV2/settings.json`.
The `APPDATA` base directory is a parameter. -/
def SETTINGS_FILE_PATHS (appdata : String) : VKey → String
  | .v1 => appdata ++ "/YimMenu/settings.json"
  | .v2 => appdata ++ "/YimMenuV2/settings.json"

/-- Method `SettingsManager._get_file_path`. -/
def get_file_path (appdata yimVersion : String) : String :=
  SETTINGS_FILE_PATHS appdata (normKey yimVersion)

/-- On-disk content of a settings file: parseable JSON, or unparseable
(`json.JSONDecodeError` on read). -/
inductive FileContent where
  | good : JVal → FileContent
  | bad

/-- The file system: path ↦ (content, modification time).  A path absent
from the list is a missing file (`os.path.exists` false). -/
abbrev FS := List (String × (FileContent × Nat))

/-- Python `os.path.exists` / read of a file: `none` when missing. -/
def fsLookup : FS → String → Option (FileContent × Nat)
  | [], _ => none
  | (p, e) :: rest, path => if p = path then some e else fsLookup rest path

/-- Atomic replace of a file's content, assigning the new mtime. -/
def fsSet : FS → String → FileContent × Nat → FS
  | [], path, e => [(path, e)]
  | (p, old) :: rest, path, e =>
      if p = path then (p, e) :: rest else (p, old) :: fsSet rest path e

/-- The `SettingsManager` singleton state: `_settings_cache` and
`_last_modified`, one slot per version key.  Fresh state: caches `None`,
recorded mtimes `0`. -/
structure SMState where
  cacheV1 : Option JVal
  cacheV2 : Option JVal
  lmV1 : Nat
  lmV2 : Nat

/-- Python `self._settings_cache[key]`. -/
def cacheGet (s : SMState) : VKey → Option JVal
  | .v1 => s.cacheV1
  | .v2 => s.cacheV2

/-- Python `self._settings_cache[key] = v`. -/
def cacheSet (s : SMState) (k : VKey) (v : Option JVal) : SMState :=
  match k with
  | .v1 => { s with cacheV1 := v }
  | .v2 => { s with cacheV2 := v }

/-- Python `self._last_modified[key]`. -/
def lmGet (s : SMState) : VKey → Nat
  | .v1 => s.lmV1
  | .v2 => s.lmV2

/-- Python `self._last_modified[key] = t`. -/
def lmSet (s : SMState) (k : VKey) (t : Nat) : SMState :=
  match k with
  | .v1 => { s with lmV1 := t }
  | .v2 => { s with lmV2 := t }

/-- The whole world the settings manager acts on: the `APPDATA` base
directory, the file system, and the manager's in-memory state. -/
structure World where
  appdata : String
  fs : FS
  sm : SMState

/-- Method `SettingsManager._read_json_safely`: missing file ↦ `{}`; unparseable
file ↦ warning logged and `{}`; otherwise the parsed document. -/
def readJsonSafely (fs : FS) (path : String) : JVal :=
  match fsLookup fs path with
  | none => .obj []
  | some (.good j, _) => j
  | some (.bad, _) => .obj []

/-- Method `SettingsManager._write_json_safely`: on success the target file is
atomically replaced (content `data`, fresh mtime `newMtime`), the cache
entry is set to `data` and the recorded mtime to the new file mtime, and
`True` is returned; on an `OSError` nothing changes and `False` is
returned. -/
def writeJsonSafely (w : World) (path : String) (data : JVal) (key : VKey) :
    Bool → Nat → Bool × World
  | true, newMtime =>
      (true,
       { w with
           fs := fsSet w.fs path (.good data, newMtime),
           sm := cacheSet (lmSet w.sm key newMtime) key (some data) })
  | false, _ => (false, w)

/-- Result of `_get_settings_with_cache`: the document, the resulting
world, and whether `_read_json_safely` was actually invoked (the file was
re-read and re-parsed) during this call. -/
structure ReadResult where
  doc : JVal
  world : World
  didRead : Bool

/-- Method `SettingsManager._get_settings_with_cache`: missing file ↦ `{}`
without touching the cache; otherwise, if the cache slot is `None` or the
recorded mtime differs from the file's current mtime, re-read the file and
refresh cache and recorded mtime; otherwise serve the cached document. -/
def getSettingsWithCache (w : World) (yimVersion : String) : ReadResult :=
  match fsLookup w.fs (get_file_path w.appdata yimVersion) with
  | none => ⟨.obj [], w, false⟩
  | some (_, mtime) =>
      match cacheGet w.sm (normKey yimVersion) with
      | none =>
          ⟨readJsonSafely w.fs (get_file_path w.appdata yimVersion),
           { w with
               sm := cacheSet (lmSet w.sm (normKey yimVersion) mtime)
                       (normKey yimVersion)
                       (some (readJsonSafely w.fs
                               (get_file_path w.appdata yimVersion))) },
           true⟩
      | some cached =>
          if lmGet w.sm (normKey yimVersion) ≠ mtime then
            ⟨readJsonSafely w.fs (get_file_path w.appdata yimVersion),
             { w with
                 sm := cacheSet (lmSet w.sm (normKey yimVersion) mtime)
                         (normKey yimVersion)
                         (some (readJsonSafely w.fs
                                 (get_file_path w.appdata yimVersion))) },
             true⟩
          else
            ⟨cached, w, false⟩

/-- Method `SettingsManager.get_setting`: read the document through the cache,
traverse the dotted key path, and return the default on `KeyError` /
`TypeError`. -/
def get_setting (w : World) (keyPath : String) (default : JVal)
    (yimVersion : String) : JVal × World :=
  match lookupPath (getSettingsWithCache w yimVersion).doc
          (splitKeyPath keyPath) with
  | some v => (v, (getSettingsWithCache w yimVersion).world)
  | none => (default, (getSettingsWithCache w yimVersion).world)

/-- Method `SettingsManager.set_setting`: read the document through the cache,
mutate it along the dotted key path (creating / overwriting intermediate
dicts), then persist with `_write_json_safely`.  The mutation happens on
the Python dict in place: when the settings file existed at read time the
returned document is the cache entry itself, so the cache entry holds the
mutated document even when the subsequent write fails. -/
def set_setting (w : World) (keyPath : String) (value : JVal)
    (yimVersion : String) (writeOk : Bool) (newMtime : Nat) : Bool × World :=
  match setPath (getSettingsWithCache w yimVersion).doc
          (splitKeyPath keyPath) value with
  | none => (false, (getSettingsWithCache w yimVersion).world)
  | some newData =>
      writeJsonSafely
        (match fsLookup w.fs (get_file_path w.appdata yimVersion) with
         | some _ =>
             { (getSettingsWithCache w yimVersion).world with
                 sm := cacheSet (getSettingsWithCache w yimVersion).world.sm
                         (normKey yimVersion) (some newData) }
         | none => (getSettingsWithCache w yimVersion).world)
        (get_file_path w.appdata yimVersion) newData (normKey yimVersion)
        writeOk newMtime

/-- The fixed default document written by `ensure_settings_file_exists`. -/
def default_settings : JVal :=
  .obj
    [("lua", .obj
        [("auto_reload_scripts", .bool false),
         ("auto_reload_changed_scripts", .bool false)]),
     ("debug", .obj [("external_console", .bool false)]),
     ("theme", .obj [("light_mode", .bool false)])]

/-- Method `SettingsManager.ensure_settings_file_exists`: write the default
document when the file is missing; otherwise do nothing. -/
def ensure_settings_file_exists (w : World) (yimVersion : String)
    (writeOk : Bool) (newMtime : Nat) : World :=
  match fsLookup w.fs (get_file_path w.appdata yimVersion) with
  | some _ => w
  | none =>
      (writeJsonSafely w (get_file_path w.appdata yimVersion)
        default_settings (normKey yimVersion) writeOk newMtime).2

/-- Method `SettingsManager.get_auto_reload_changed_scripts`. -/
def get_auto_reload_changed_scripts (w : World) (yimVersion : String) :
    JVal × World :=
  get_setting w "lua.auto_reload_changed_scripts" (.bool false) yimVersion

/-- Method `SettingsManager.set_auto_reload_changed_scripts`. -/
def set_auto_reload_changed_scripts (w : World) (value : JVal)
    (yimVersion : String) (writeOk : Bool) (newMtime : Nat) : Bool × World :=
  set_setting w "lua.auto_reload_changed_scripts" value yimVersion
    writeOk newMtime

/-- Method `SettingsManager.sync_auto_reload_settings`: equal versions ↦ no-op
returning `True`; otherwise read the source's flag and write it to the
target. -/
def sync_auto_reload_settings (w : World) (sourceVersion targetVersion : String)
    (writeOk : Bool) (newMtime : Nat) : Bool × World :=
  if sourceVersion = targetVersion then
    (true, w)
  else
    set_auto_reload_changed_scripts
      (get_auto_reload_changed_scripts w sourceVersion).2
      (get_auto_reload_changed_scripts w sourceVersion).1
      targetVersion writeOk newMtime

/-! ### Lua script toggle service (`lua_manager.py`)

A directory is the list of names of the regular files it contains (each
name occurring once, as on a real file system); `os.listdir` may present
them in any order.  Whether a `shutil.move` succeeds is an input
(`moveOk`); a failed move raises `IOError`/`OSError`, which the code
catches, leaving the directories unchanged and returning `False`. -/

/-- Lexicographic code-point comparison of character lists: the order
Python uses to compare and sort strings. -/
def charListLe : List Char → List Char → Bool
  | [], _ => true
  | _ :: _, [] => false
  | a :: as, b :: bs => if a = b then charListLe as bs else decide (a < b)

/-- Python string comparison `s <= t`. -/
def strLe (s t : String) : Bool := charListLe s.data t.data

/-- Test `charLeads t l`: `l` starts with `t` (on character lists). -/
def charLeads : List Char → List Char → Bool
  | [], _ => true
  | _ :: _, [] => false
  | a :: as, b :: bs => a = b && charLeads as bs

/-- Python `s.endswith(t)`. -/
def strEndsWith (s t : String) : Bool :=
  charLeads t.data.reverse s.data.reverse

/-- Python `s.removesuffix(t)`: drop a trailing `t` when present. -/
def removesuffix (s t : String) : String :=
  if strEndsWith s t then String.mk (s.data.take (s.data.length - t.data.length))
  else s

/-- Helper `_get_lua_files`: the `.lua` filter of `lua_manager.py` (the
`os.path.isfile` part is carried by directories listing regular files
only). -/
def isLuaFile (f : String) : Bool := strEndsWith f ".lua"

/-- Insert into a list sorted by `strLe`, keeping it sorted. -/
def insertSorted (x : String) : List String → List String
  | [] => [x]
  | y :: ys => if strLe x y then x :: y :: ys else y :: insertSorted x ys

/-- Python `sorted` on strings (ascending code-point order). -/
def sortStrings : List String → List String
  | [] => []
  | x :: xs => insertSorted x (sortStrings xs)

/-- The two script directories of one installation: the active `scripts`
directory and the `disabled` directory. -/
structure LuaDirs where
  scripts : List String
  disabled : List String

/-- Script directories of both installations (`SCRIPTS_PATH` /
`DISABLED_SCRIPTS_PATH` for v1, `SCRIPTS_PATH_V2` /
`DISABLED_SCRIPTS_PATH_V2` for v2). -/
structure LuaFS where
  v1 : LuaDirs
  v2 : LuaDirs

/-- The `if version == "v2"` directory selection of `lua_manager.py`. -/
def luaDirs (fs : LuaFS) (version : String) : LuaDirs :=
  if version = "v2" then fs.v2 else fs.v1

/-- Replace the selected installation's directories. -/
def setLuaDirs (fs : LuaFS) (version : String) (d : LuaDirs) : LuaFS :=
  if version = "v2" then { fs with v2 := d } else { fs with v1 := d }

/-- Landing of a moved file in its destination directory: `shutil.move`
overwrites an already existing file of the same name. -/
def addFile (l : List String) (f : String) : List String :=
  if f ∈ l then l else f :: l

/-- Disappearance of a moved file from its source directory. -/
def removeFile (l : List String) (f : String) : List String :=
  l.filter (fun g => g ≠ f)

/-- Function `get_scripts`: list the `.lua` files of the active and the disabled
directory, sorted, with the `.lua` suffix removed for display. -/
def get_scripts (fs : LuaFS) (version : String) : List String × List String :=
  ((sortStrings ((luaDirs fs version).scripts.filter isLuaFile)).map
      (fun s => removesuffix s ".lua"),
   (sortStrings ((luaDirs fs version).disabled.filter isLuaFile)).map
      (fun s => removesuffix s ".lua"))

/-- Function `enable_script`: move `<filename>.lua` from the disabled directory to
the scripts directory; `False` without raising when the source file is
absent or the move fails. -/
def enable_script (fs : LuaFS) (filename version : String) (moveOk : Bool) :
    Bool × LuaFS :=
  if (filename ++ ".lua") ∈ (luaDirs fs version).disabled then
    if moveOk then
      (true,
       setLuaDirs fs version
         ⟨addFile (luaDirs fs version).scripts (filename ++ ".lua"),
          removeFile (luaDirs fs version).disabled (filename ++ ".lua")⟩)
    else (false, fs)
  else (false, fs)

/-- Function `disable_script`: move `<filename>.lua` from the scripts directory to
the disabled directory; `False` without raising when the source file is
absent or the move fails. -/
def disable_script (fs : LuaFS) (filename version : String) (moveOk : Bool) :
    Bool × LuaFS :=
  if (filename ++ ".lua") ∈ (luaDirs fs version).scripts then
    if moveOk then
      (true,
       setLuaDirs fs version
         ⟨removeFile (luaDirs fs version).scripts (filename ++ ".lua"),
          addFile (luaDirs fs version).disabled (filename ++ ".lua")⟩)
    else (false, fs)
  else (false, fs)

/-! ### Dictionary and key-path lemmas -/

@[simp]
theorem assocLookup_assocSet_self (l : List (String × JVal)) (k : String)
    (v : JVal) : assocLookup (assocSet l k v) k = some v := by
  induction l with
  | nil => simp [assocSet, assocLookup]
  | cons p rest ih =>
      obtain ⟨k1, v1⟩ := p
      by_cases h : k1 = k
      · subst h; simp [assocSet, assocLookup]
      · simp [assocSet, assocLookup, h, ih]

theorem assocLookup_assocSet_ne (l : List (String × JVal)) (k k2 : String)
    (v : JVal) (h : k2 ≠ k) :
    assocLookup (assocSet l k v) k2 = assocLookup l k2 := by
  induction l with
  | nil =>
      have h1 : ¬ (k = k2) := fun e => h e.symm
      simp [assocSet, assocLookup, h1]
  | cons p rest ih =>
      obtain ⟨k1, v1⟩ := p
      by_cases h1 : k1 = k
      · subst h1
        have h2 : ¬ (k1 = k2) := fun e => h e.symm
        simp [assocSet, assocLookup, h2]
      · by_cases h2 : k1 = k2
        · subst h2; simp [assocSet, assocLookup, h1]
        · simp [assocSet, assocLookup, h1, h2, ih]

theorem assocSet_assocSet (l : List (String × JVal)) (k : String)
    (a b : JVal) : assocSet (assocSet l k a) k b = assocSet l k b := by
  induction l with
  | nil => simp [assocSet]
  | cons p rest ih =>
      obtain ⟨k1, v1⟩ := p
      by_cases h : k1 = k
      · subst h; simp [assocSet]
      · simp [assocSet, h, ih]

theorem setPath_sound (ks : List String) (j j2 v : JVal)
    (h : setPath j ks v = some j2) : lookupPath j2 ks = some v := by
  induction ks generalizing j j2 with
  | nil => cases j <;> simp [setPath] at h
  | cons k ks ih =>
      cases ks with
      | nil =>
          cases j <;> simp [setPath] at h
          case obj kvs =>
            subst h
            simp [lookupPath]
      | cons k2 ks2 =>
          cases j <;> simp [setPath] at h
          case obj kvs =>
            cases hc : setPath (childFor kvs k) (k2 :: ks2) v with
            | none => rw [hc] at h; simp at h
            | some c2 =>
                rw [hc] at h
                simp at h
                subst h
                simp [lookupPath]
                exact ih _ _ hc

theorem pathMissing_iff (j : JVal) (ks : List String) :
    pathMissing j ks = true ↔ lookupPath j ks = none := by
  induction ks generalizing j with
  | nil => cases j <;> simp [pathMissing, lookupPath]
  | cons k ks ih =>
      cases j with
      | obj kvs =>
          cases hl : assocLookup kvs k with
          | none => simp [pathMissing, lookupPath, hl]
          | some v => simp [pathMissing, lookupPath, hl, ih]
      | bool b => simp [pathMissing, lookupPath]
      | str s => simp [pathMissing, lookupPath]
      | num n => simp [pathMissing, lookupPath]
      | null => simp [pathMissing, lookupPath]

theorem setPath_frame (P : List String) (j j2 v : JVal) (ks : List String)
    (h : setPath j P v = some j2)
    (h1 : listLeads P ks = false) (h2 : listLeads ks P = false) :
    lookupPath j2 ks = lookupPath j ks := by
  induction P generalizing j j2 ks with
  | nil => simp [listLeads] at h1
  | cons k P2 ihP =>
      cases ks with
      | nil => simp [listLeads] at h2
      | cons k3 ks2 =>
          by_cases hk : k3 = k
          · subst hk
            simp [listLeads] at h1 h2
            cases P2 with
            | nil => simp [listLeads] at h1
            | cons k2 P3 =>
                cases j <;> simp [setPath] at h
                next kvs =>
                  cases hc : setPath (childFor kvs k3) (k2 :: P3) v with
                  | none => rw [hc] at h; simp at h
                  | some c2 =>
                      rw [hc] at h
                      simp at h
                      subst h
                      cases ks2 with
                      | nil => simp [listLeads] at h2
                      | cons k4 ks3 =>
                          have hrec := ihP _ _ _ hc h1 h2
                          simp [lookupPath]
                          rw [hrec]
                          unfold childFor
                          cases hl : assocLookup kvs k3 with
                          | none => simp [lookupPath, assocLookup]
                          | some u =>
                              cases u <;>
                                simp [lookupPath, assocLookup]
          · -- the paths diverge at the first segment
            cases P2 with
            | nil =>
                cases j <;> simp [setPath] at h
                next kvs =>
                  subst h
                  simp [lookupPath, assocLookup_assocSet_ne _ _ _ _ hk]
            | cons k2 P3 =>
                cases j <;> simp [setPath] at h
                next kvs =>
                  cases hc : setPath (childFor kvs k) (k2 :: P3) v with
                  | none => rw [hc] at h; simp at h
                  | some c2 =>
                      rw [hc] at h
                      simp at h
                      subst h
                      simp [lookupPath, assocLookup_assocSet_ne _ _ _ _ hk]

/-! ### File-system and cache-state lemmas -/

theorem strData_append (s t : String) : (s ++ t).data = s.data ++ t.data := by
  cases s; cases t; rfl

theorem strData_inj (s t : String) (h : s.data = t.data) : s = t := by
  cases s; cases t; exact congrArg String.mk h

theorem SETTINGS_FILE_PATHS_ne (appdata : String) (k k2 : VKey)
    (h : k ≠ k2) :
    SETTINGS_FILE_PATHS appdata k ≠ SETTINGS_FILE_PATHS appdata k2 := by
  cases k <;> cases k2 <;> first
    | exact absurd rfl h
    | (intro he
       have hd := congrArg String.data he
       simp only [SETTINGS_FILE_PATHS] at hd
       rw [strData_append, strData_append] at hd
       have h2 := List.append_cancel_left hd
       exact absurd (strData_inj _ _ h2) (by decide))

@[simp]
theorem fsLookup_fsSet_self (fs : FS) (p : String) (e : FileContent × Nat) :
    fsLookup (fsSet fs p e) p = some e := by
  induction fs with
  | nil => simp [fsSet, fsLookup]
  | cons q rest ih =>
      obtain ⟨p1, e1⟩ := q
      by_cases h : p1 = p
      · subst h; simp [fsSet, fsLookup]
      · simp [fsSet, fsLookup, h, ih]

theorem fsLookup_fsSet_ne (fs : FS) (p p2 : String) (e : FileContent × Nat)
    (h : p2 ≠ p) : fsLookup (fsSet fs p e) p2 = fsLookup fs p2 := by
  induction fs with
  | nil =>
      have h1 : ¬ (p = p2) := fun e2 => h e2.symm
      simp [fsSet, fsLookup, h1]
  | cons q rest ih =>
      obtain ⟨p1, e1⟩ := q
      by_cases h1 : p1 = p
      · subst h1
        have h2 : ¬ (p1 = p2) := fun e2 => h e2.symm
        simp [fsSet, fsLookup, h2]
      · by_cases h2 : p1 = p2
        · subst h2; simp [fsSet, fsLookup, h1]
        · simp [fsSet, fsLookup, h1, h2, ih]

@[simp]
theorem cacheGet_cacheSet_self (s : SMState) (k : VKey) (v : Option JVal) :
    cacheGet (cacheSet s k v) k = v := by
  cases k <;> rfl

theorem cacheGet_cacheSet_ne (s : SMState) (k k2 : VKey) (v : Option JVal)
    (h : k2 ≠ k) : cacheGet (cacheSet s k v) k2 = cacheGet s k2 := by
  cases k <;> cases k2 <;> first
    | exact absurd rfl h
    | rfl

@[simp]
theorem lmGet_cacheSet (s : SMState) (k k2 : VKey) (v : Option JVal) :
    lmGet (cacheSet s k v) k2 = lmGet s k2 := by
  cases k <;> cases k2 <;> rfl

@[simp]
theorem cacheGet_lmSet (s : SMState) (k k2 : VKey) (t : Nat) :
    cacheGet (lmSet s k t) k2 = cacheGet s k2 := by
  cases k <;> cases k2 <;> rfl

@[simp]
theorem lmGet_lmSet_self (s : SMState) (k : VKey) (t : Nat) :
    lmGet (lmSet s k t) k = t := by
  cases k <;> rfl

theorem lmGet_lmSet_ne (s : SMState) (k k2 : VKey) (t : Nat) (h : k2 ≠ k) :
    lmGet (lmSet s k t) k2 = lmGet s k2 := by
  cases k <;> cases k2 <;> first
    | exact absurd rfl h
    | rfl

/-! ### Lemmas about the cached read -/

@[simp]
theorem getSettingsWithCache_fs (w : World) (ver : String) :
    (getSettingsWithCache w ver).world.fs = w.fs := by
  unfold getSettingsWithCache
  split
  · rfl
  · split
    · rfl
    · split
      · rfl
      · rfl

@[simp]
theorem getSettingsWithCache_appdata (w : World) (ver : String) :
    (getSettingsWithCache w ver).world.appdata = w.appdata := by
  unfold getSettingsWithCache
  split
  · rfl
  · split
    · rfl
    · split
      · rfl
      · rfl

theorem getSettingsWithCache_cache_frame (w : World) (ver : String)
    (k : VKey) (hk : k ≠ normKey ver) :
    cacheGet (getSettingsWithCache w ver).world.sm k = cacheGet w.sm k
    ∧ lmGet (getSettingsWithCache w ver).world.sm k = lmGet w.sm k := by
  unfold getSettingsWithCache
  split
  · exact ⟨rfl, rfl⟩
  · split
    · simp [cacheGet_cacheSet_ne _ _ _ _ hk, lmGet_lmSet_ne _ _ _ _ hk]
    · split
      · simp [cacheGet_cacheSet_ne _ _ _ _ hk, lmGet_lmSet_ne _ _ _ _ hk]
      · exact ⟨rfl, rfl⟩

theorem lmGet_after_read (w : World) (ver : String) (c : FileContent)
    (t : Nat)
    (hf : fsLookup w.fs (get_file_path w.appdata ver) = some (c, t)) :
    lmGet (getSettingsWithCache w ver).world.sm (normKey ver) = t := by
  unfold getSettingsWithCache
  rw [hf]
  cases hc : cacheGet w.sm (normKey ver) with
  | none => simp
  | some cached =>
      by_cases hl : lmGet w.sm (normKey ver) = t
      · simp [hl]
      · simp [hl]

theorem getSettingsWithCache_doc_congr (w w2 : World) (ver : String)
    (ha : w2.appdata = w.appdata)
    (hf : fsLookup w2.fs (get_file_path w.appdata ver)
            = fsLookup w.fs (get_file_path w.appdata ver))
    (hc : cacheGet w2.sm (normKey ver) = cacheGet w.sm (normKey ver))
    (hl : lmGet w2.sm (normKey ver) = lmGet w.sm (normKey ver)) :
    (getSettingsWithCache w2 ver).doc = (getSettingsWithCache w ver).doc := by
  unfold getSettingsWithCache readJsonSafely
  rw [ha, hf, hc, hl]
  rcases hfe : fsLookup w.fs (get_file_path w.appdata ver) with _ | ⟨c, t⟩
  · rfl
  · rcases hcc : cacheGet w.sm (normKey ver) with _ | cached
    · rfl
    · by_cases hlt : lmGet w.sm (normKey ver) = t
      · simp [hlt]
      · simp [hlt]

theorem get_setting_snd (w : World) (keyPath : String) (default : JVal)
    (ver : String) :
    (get_setting w keyPath default ver).2 = (getSettingsWithCache w ver).world := by
  unfold get_setting
  cases lookupPath (getSettingsWithCache w ver).doc (splitKeyPath keyPath) <;>
    rfl

theorem get_setting_fst_congr (w w2 : World) (ver : String)
    (ha : w2.appdata = w.appdata)
    (hf : fsLookup w2.fs (get_file_path w.appdata ver)
            = fsLookup w.fs (get_file_path w.appdata ver))
    (hc : cacheGet w2.sm (normKey ver) = cacheGet w.sm (normKey ver))
    (hl : lmGet w2.sm (normKey ver) = lmGet w.sm (normKey ver))
    (keyPath : String) (default : JVal) :
    (get_setting w2 keyPath default ver).1
      = (get_setting w keyPath default ver).1 := by
  unfold get_setting
  rw [getSettingsWithCache_doc_congr w w2 ver ha hf hc hl]
  cases lookupPath (getSettingsWithCache w ver).doc (splitKeyPath keyPath) <;>
    rfl

@[simp]
theorem normKey_v1 : normKey "v1" = .v1 := by decide

@[simp]
theorem normKey_v2 : normKey "v2" = .v2 := by decide

@[simp]
theorem get_file_path_v1 (appdata : String) :
    get_file_path appdata "v1" = SETTINGS_FILE_PATHS appdata .v1 := by
  simp [get_file_path]

@[simp]
theorem get_file_path_v2 (appdata : String) :
    get_file_path appdata "v2" = SETTINGS_FILE_PATHS appdata .v2 := by
  simp [get_file_path]

/-- A write through `set_setting` on one installation touches neither the
other installation's settings file nor its cache slot nor its recorded
mtime. -/
theorem set_setting_frame (w : World) (P : String) (V : JVal) (ver : String)
    (writeOk : Bool) (newMtime : Nat) (k2 : VKey) (hk : k2 ≠ normKey ver) :
    (set_setting w P V ver writeOk newMtime).2.appdata = w.appdata
    ∧ fsLookup (set_setting w P V ver writeOk newMtime).2.fs
        (SETTINGS_FILE_PATHS w.appdata k2)
      = fsLookup w.fs (SETTINGS_FILE_PATHS w.appdata k2)
    ∧ cacheGet (set_setting w P V ver writeOk newMtime).2.sm k2
      = cacheGet w.sm k2
    ∧ lmGet (set_setting w P V ver writeOk newMtime).2.sm k2
      = lmGet w.sm k2 := by
  have hpne : SETTINGS_FILE_PATHS w.appdata k2 ≠ get_file_path w.appdata ver :=
    SETTINGS_FILE_PATHS_ne w.appdata k2 (normKey ver) hk
  have hframe := getSettingsWithCache_cache_frame w ver k2 hk
  unfold set_setting
  cases hsp : setPath (getSettingsWithCache w ver).doc (splitKeyPath P) V with
  | none =>
      simp [getSettingsWithCache_fs, getSettingsWithCache_appdata,
        hframe.1, hframe.2]
  | some newData =>
      unfold writeJsonSafely
      cases hfe : fsLookup w.fs (get_file_path w.appdata ver) with
      | none =>
          cases writeOk with
          | false =>
              simp [getSettingsWithCache_fs, getSettingsWithCache_appdata,
                hframe.1, hframe.2]
          | true =>
              simp [getSettingsWithCache_fs, getSettingsWithCache_appdata,
                fsLookup_fsSet_ne _ _ _ _ hpne,
                cacheGet_cacheSet_ne _ _ _ _ hk,
                lmGet_lmSet_ne _ _ _ _ hk, hframe.1, hframe.2]
      | some e =>
          cases writeOk with
          | false =>
              simp [getSettingsWithCache_fs, getSettingsWithCache_appdata,
                cacheGet_cacheSet_ne _ _ _ _ hk, hframe.1, hframe.2]
          | true =>
              simp [getSettingsWithCache_fs, getSettingsWithCache_appdata,
                fsLookup_fsSet_ne _ _ _ _ hpne,
                cacheGet_cacheSet_ne _ _ _ _ hk,
                lmGet_lmSet_ne _ _ _ _ hk, hframe.1, hframe.2]

/-- C5: the two installations are fully isolated.  A `set_setting` against
the primary installation (`"v1"`) leaves the enhanced installation's
(`"v2"`) settings file, cache slot and recorded mtime unchanged, and every
subsequent `get_setting` against the enhanced installation returns the
same value as before the write — and vice versa. -/
theorem c5_installations_isolated (w : World) (P : String) (V : JVal)
    (writeOk : Bool) (newMtime : Nat) :
    (fsLookup (set_setting w P V "v1" writeOk newMtime).2.fs
        (get_file_path w.appdata "v2")
      = fsLookup w.fs (get_file_path w.appdata "v2")
     ∧ cacheGet (set_setting w P V "v1" writeOk newMtime).2.sm .v2
         = cacheGet w.sm .v2
     ∧ lmGet (set_setting w P V "v1" writeOk newMtime).2.sm .v2
         = lmGet w.sm .v2
     ∧ ∀ (Q : String) (d : JVal),
         (get_setting (set_setting w P V "v1" writeOk newMtime).2 Q d "v2").1
           = (get_setting w Q d "v2").1)
    ∧ (fsLookup (set_setting w P V "v2" writeOk newMtime).2.fs
        (get_file_path w.appdata "v1")
      = fsLookup w.fs (get_file_path w.appdata "v1")
     ∧ cacheGet (set_setting w P V "v2" writeOk newMtime).2.sm .v1
         = cacheGet w.sm .v1
     ∧ lmGet (set_setting w P V "v2" writeOk newMtime).2.sm .v1
         = lmGet w.sm .v1
     ∧ ∀ (Q : String) (d : JVal),
         (get_setting (set_setting w P V "v2" writeOk newMtime).2 Q d "v1").1
           = (get_setting w Q d "v1").1) := by
  have h1 := set_setting_frame w P V "v1" writeOk newMtime .v2 (by decide)
  have h2 := set_setting_frame w P V "v2" writeOk newMtime .v1 (by decide)
  constructor
  · refine ⟨by simpa using h1.2.1, h1.2.2.1, h1.2.2.2, ?_⟩
    intro Q d
    apply get_setting_fst_congr
    · exact h1.1
    · simpa using h1.2.1
    · simpa using h1.2.2.1
    · simpa using h1.2.2.2
  · refine ⟨by simpa using h2.2.1, h2.2.2.1, h2.2.2.2, ?_⟩
    intro Q d
    apply get_setting_fst_congr
    · exact h2.1
    · simpa using h2.2.1
    · simpa using h2.2.2.1
    · simpa using h2.2.2.2

/-- After a successful `_write_json_safely` of `newData`, a `get_setting`
of any key path that `newData` resolves serves that value straight from
the refreshed cache. -/
theorem get_after_write (w1 : World) (ver : String) (p : String)
    (newData : JVal) (mt : Nat) (P : String) (V d : JVal)
    (hp : p = get_file_path w1.appdata ver)
    (hl : lookupPath newData (splitKeyPath P) = some V) :
    (get_setting
      { w1 with
          fs := fsSet w1.fs p (.good newData, mt),
          sm := cacheSet (lmSet w1.sm (normKey ver) mt) (normKey ver)
                  (some newData) }
      P d ver).1 = V := by
  subst hp
  unfold get_setting getSettingsWithCache
  simp [hl]

/-- C1: for every key path `P`, value `V` and installation, when
`set_setting P V` reports success, an immediately following
`get_setting P` on the same installation returns `V`. -/
theorem c1_set_then_get_round_trip (w : World) (P : String) (V : JVal)
    (ver : String) (writeOk : Bool) (newMtime : Nat) (d : JVal)
    (h : (set_setting w P V ver writeOk newMtime).1 = true) :
    (get_setting (set_setting w P V ver writeOk newMtime).2 P d ver).1 = V := by
  cases hsp : setPath (getSettingsWithCache w ver).doc (splitKeyPath P) V with
  | none =>
      unfold set_setting at h
      simp only [hsp] at h
      simp at h
  | some newData =>
      unfold set_setting at h ⊢
      simp only [hsp] at h ⊢
      cases writeOk with
      | false => simp only [writeJsonSafely] at h; simp at h
      | true =>
          cases hfe : fsLookup w.fs (get_file_path w.appdata ver) with
          | none =>
              simp only [hfe, writeJsonSafely]
              exact get_after_write (getSettingsWithCache w ver).world ver
                (get_file_path w.appdata ver) newData newMtime P V d
                (by simp) (setPath_sound _ _ _ _ hsp)
          | some e =>
              simp only [hfe, writeJsonSafely]
              exact get_after_write
                { (getSettingsWithCache w ver).world with
                    sm := cacheSet (getSettingsWithCache w ver).world.sm
                            (normKey ver) (some newData) }
                ver (get_file_path w.appdata ver) newData newMtime P V d
                (by simp) (setPath_sound _ _ _ _ hsp)

/-- Witness for C1 at a concrete input: on a fresh world, setting `"a.b"`
to `42` succeeds and reading `"a.b"` back returns `42`. -/
theorem c1_witness :
    (set_setting ⟨"A", [], ⟨none, none, 0, 0⟩⟩ "a.b" (.num 42) "v1" true 7).1
      = true
    ∧ (get_setting
        (set_setting ⟨"A", [], ⟨none, none, 0, 0⟩⟩ "a.b" (.num 42) "v1" true 7).2
        "a.b" .null "v1").1 = .num 42 :=
  ⟨rfl,
   c1_set_then_get_round_trip ⟨"A", [], ⟨none, none, 0, 0⟩⟩ "a.b" (.num 42)
     "v1" true 7 .null rfl⟩

/-- C2: whenever the dotted key path does not resolve in the current
document — a segment is absent or an intermediate segment is not a
mapping (`pathMissing`) — `get_setting` returns the supplied default.
`get_setting` is a total function of the embedding, so no exception
escapes for missing keys. -/
theorem c2_get_missing_returns_default (w : World) (P : String) (d : JVal)
    (ver : String)
    (h : pathMissing (getSettingsWithCache w ver).doc (splitKeyPath P) = true) :
    (get_setting w P d ver).1 = d := by
  have hn := (pathMissing_iff _ _).mp h
  unfold get_setting
  rw [hn]

/-- Witness for C2 at a concrete input: on a fresh world the path `"a.b"`
is missing and the default is returned. -/
theorem c2_witness :
    pathMissing (getSettingsWithCache ⟨"A", [], ⟨none, none, 0, 0⟩⟩ "v1").doc
        (splitKeyPath "a.b") = true
    ∧ (get_setting ⟨"A", [], ⟨none, none, 0, 0⟩⟩ "a.b" (.str "none") "v1").1
        = .str "none" :=
  ⟨rfl,
   c2_get_missing_returns_default ⟨"A", [], ⟨none, none, 0, 0⟩⟩ "a.b"
     (.str "none") "v1" rfl⟩

/-- The cache entry mutated in place by a `set_setting` whose disk write
failed is served by the next `get_setting` while the file's mtime is
unchanged. -/
theorem get_after_failed_write (w1 : World) (ver : String)
    (newData : JVal) (P : String) (V d : JVal) (c : FileContent) (t : Nat)
    (hf : fsLookup w1.fs (get_file_path w1.appdata ver) = some (c, t))
    (hlm : lmGet w1.sm (normKey ver) = t)
    (hl : lookupPath newData (splitKeyPath P) = some V) :
    (get_setting { w1 with sm := cacheSet w1.sm (normKey ver) (some newData) }
      P d ver).1 = V := by
  unfold get_setting getSettingsWithCache
  simp [hf, hlm, hl]

/-! ### String suffix and sorting lemmas for the script listing -/

@[simp]
theorem strMk_data (s : String) : String.mk s.data = s := by
  cases s; rfl

theorem charLeads_append (x y : List Char) : charLeads x (x ++ y) = true := by
  induction x with
  | nil => rfl
  | cons a as ih => simp [charLeads, ih]

theorem charLeads_ex (x y : List Char) (h : charLeads x y = true) :
    ∃ z, y = x ++ z := by
  induction x generalizing y with
  | nil => exact ⟨y, rfl⟩
  | cons a as ih =>
      cases y with
      | nil => simp [charLeads] at h
      | cons b bs =>
          simp [charLeads] at h
          obtain ⟨he, hc⟩ := h
          subst he
          obtain ⟨z, hz⟩ := ih bs hc
          exact ⟨z, by simp [hz]⟩

theorem strEndsWith_append (b t : String) : strEndsWith (b ++ t) t = true := by
  unfold strEndsWith
  rw [strData_append, List.reverse_append]
  exact charLeads_append _ _

theorem removesuffix_append (b t : String) : removesuffix (b ++ t) t = b := by
  simp [removesuffix, strEndsWith_append, strData_append]

theorem removesuffix_endsWith (f t : String)
    (h : strEndsWith f t = true) : removesuffix f t ++ t = f := by
  obtain ⟨z, hz⟩ := charLeads_ex _ _ h
  have hdata : f.data = z.reverse ++ t.data := by
    have h2 : f.data.reverse.reverse = (t.data.reverse ++ z).reverse := by
      rw [← hz]
    rw [List.reverse_reverse, List.reverse_append, List.reverse_reverse] at h2
    exact h2
  apply strData_inj
  rw [strData_append]
  simp [removesuffix, h, hdata]

theorem charListLe_total (x y : List Char) (h : charListLe x y = false) :
    charListLe y x = true := by
  induction x generalizing y with
  | nil => simp [charListLe] at h
  | cons a as ih =>
      cases y with
      | nil => rfl
      | cons b bs =>
          by_cases he : a = b
          · subst he
            simp [charListLe] at h ⊢
            exact ih bs h
          · simp [charListLe, he] at h
            have hne : b ≠ a := fun e => he e.symm
            have hba : b < a := lt_of_le_of_ne h hne
            simp [charListLe, hne, hba]

theorem charListLe_trans (x y z : List Char) (hxy : charListLe x y = true)
    (hyz : charListLe y z = true) : charListLe x z = true := by
  induction x generalizing y z with
  | nil => rfl
  | cons a as ih =>
      cases y with
      | nil => simp [charListLe] at hxy
      | cons b bs =>
          cases z with
          | nil => simp [charListLe] at hyz
          | cons c cs =>
              by_cases hab : a = b
              · subst hab
                simp [charListLe] at hxy
                by_cases hac : a = c
                · subst hac
                  simp [charListLe] at hyz ⊢
                  exact ih bs cs hxy hyz
                · simp [charListLe, hac] at hyz ⊢
                  exact hyz
              · simp [charListLe, hab] at hxy
                by_cases hbc : b = c
                · subst hbc
                  simp [charListLe, hab]
                  exact hxy
                · simp [charListLe, hbc] at hyz
                  have hac : a ≠ c := ne_of_lt (lt_trans hxy hyz)
                  simp [charListLe, hac]
                  exact lt_trans hxy hyz

theorem strLe_total (x y : String) (h : strLe x y = false) :
    strLe y x = true := charListLe_total _ _ h

theorem strLe_trans (x y z : String) (hxy : strLe x y = true)
    (hyz : strLe y z = true) : strLe x z = true :=
  charListLe_trans _ _ _ hxy hyz

theorem mem_insertSorted (x y : String) (l : List String) :
    y ∈ insertSorted x l ↔ y = x ∨ y ∈ l := by
  induction l with
  | nil => simp [insertSorted]
  | cons h t ih =>
      by_cases hle : strLe x h = true
      · simp [insertSorted, hle]
      · simp [insertSorted, hle, ih]
        tauto

theorem mem_sortStrings (y : String) (l : List String) :
    y ∈ sortStrings l ↔ y ∈ l := by
  induction l with
  | nil => simp [sortStrings]
  | cons h t ih => simp [sortStrings, mem_insertSorted, ih]

theorem pairwise_insertSorted (x : String) (l : List String)
    (hl : l.Pairwise (fun a b => strLe a b = true)) :
    (insertSorted x l).Pairwise (fun a b => strLe a b = true) := by
  induction l with
  | nil => simp [insertSorted]
  | cons h t ih =>
      rw [List.pairwise_cons] at hl
      obtain ⟨hl1, hl2⟩ := hl
      by_cases hle : strLe x h = true
      · rw [insertSorted, if_pos hle, List.pairwise_cons]
        constructor
        · intro b hb
          rcases List.mem_cons.mp hb with hbh | hbt
          · subst hbh; exact hle
          · exact strLe_trans _ _ _ hle (hl1 b hbt)
        · rw [List.pairwise_cons]
          exact ⟨hl1, hl2⟩
      · rw [insertSorted, if_neg hle, List.pairwise_cons]
        have hxh : strLe h x = true := by
          apply strLe_total
          revert hle
          cases strLe x h <;> simp
        constructor
        · intro b hb
          rcases (mem_insertSorted x b t).mp hb with hbx | hbt
          · subst hbx; exact hxh
          · exact hl1 b hbt
        · exact ih hl2

theorem pairwise_sortStrings (l : List String) :
    (sortStrings l).Pairwise (fun a b => strLe a b = true) := by
  induction l with
  | nil => simp [sortStrings]
  | cons h t ih => exact pairwise_insertSorted h (sortStrings t) ih

theorem luaDirs_setLuaDirs (fs : LuaFS) (version : String) (d : LuaDirs) :
    luaDirs (setLuaDirs fs version d) version = d := by
  unfold luaDirs setLuaDirs
  by_cases h : version = "v2" <;> simp [h]

theorem mem_addFile_self (l : List String) (f : String) : f ∈ addFile l f := by
  unfold addFile
  by_cases h : f ∈ l <;> simp [h]

theorem not_mem_removeFile_self (l : List String) (f : String) :
    f ∉ removeFile l f := by
  simp [removeFile, List.mem_filter]

/-- Membership in a directory listing produced by `get_scripts`: the base
names are exactly the `.lua` files of the directory. -/
theorem mem_scripts_listing (l : List String) (b : String) :
    b ∈ (sortStrings (l.filter isLuaFile)).map (fun s => removesuffix s ".lua")
      ↔ (b ++ ".lua") ∈ l := by
  rw [List.mem_map]
  constructor
  · rintro ⟨f, hf, rfl⟩
    rw [mem_sortStrings, List.mem_filter] at hf
    obtain ⟨hfl, hlua⟩ := hf
    rw [removesuffix_endsWith f ".lua" (by simpa [isLuaFile] using hlua)]
    exact hfl
  · intro hb
    refine ⟨b ++ ".lua", ?_, removesuffix_append b ".lua"⟩
    rw [mem_sortStrings, List.mem_filter]
    exact ⟨hb, by simp [isLuaFile, strEndsWith_append]⟩

/-- The order of a `get_scripts` listing: consecutive base names are
ascending when their `.lua` file names are compared the way `sorted`
compared them. -/
theorem pairwise_scripts_listing (l : List String) :
    ((sortStrings (l.filter isLuaFile)).map
        (fun s => removesuffix s ".lua")).Pairwise
      (fun a b => strLe (a ++ ".lua") (b ++ ".lua") = true) := by
  rw [List.pairwise_map]
  refine List.Pairwise.imp_of_mem ?_ (pairwise_sortStrings _)
  intro a b ha hb hab
  rw [mem_sortStrings, List.mem_filter] at ha hb
  rw [removesuffix_endsWith a ".lua" (by simpa [isLuaFile] using ha.2),
      removesuffix_endsWith b ".lua" (by simpa [isLuaFile] using hb.2)]
  exact hab

/-- C9: enabling or disabling a script whose source file is absent fails
by returning `False` without raising and leaves the directories unchanged;
on success the script file is present in the destination directory and
absent from the source directory; and `get_scripts` lists exactly the base
names of the `.lua` files present in the active and disabled directories,
sorted (by the full file names, as `sorted` is applied before the
extension is stripped) with the `.lua` extension stripped. -/
theorem c9_script_toggle (fs : LuaFS) (name version : String)
    (moveOk : Bool) :
    ((name ++ ".lua") ∉ (luaDirs fs version).disabled →
        enable_script fs name version moveOk = (false, fs))
    ∧ ((name ++ ".lua") ∉ (luaDirs fs version).scripts →
        disable_script fs name version moveOk = (false, fs))
    ∧ ((enable_script fs name version moveOk).1 = true →
        (name ++ ".lua")
            ∈ (luaDirs (enable_script fs name version moveOk).2 version).scripts
        ∧ (name ++ ".lua")
            ∉ (luaDirs (enable_script fs name version moveOk).2 version).disabled)
    ∧ ((disable_script fs name version moveOk).1 = true →
        (name ++ ".lua")
            ∈ (luaDirs (disable_script fs name version moveOk).2 version).disabled
        ∧ (name ++ ".lua")
            ∉ (luaDirs (disable_script fs name version moveOk).2 version).scripts)
    ∧ (∀ b : String,
        (b ∈ (get_scripts fs version).1
          ↔ (b ++ ".lua") ∈ (luaDirs fs version).scripts)
        ∧ (b ∈ (get_scripts fs version).2
          ↔ (b ++ ".lua") ∈ (luaDirs fs version).disabled))
    ∧ ((get_scripts fs version).1.Pairwise
        (fun a b => strLe (a ++ ".lua") (b ++ ".lua") = true)
      ∧ (get_scripts fs version).2.Pairwise
        (fun a b => strLe (a ++ ".lua") (b ++ ".lua") = true)) := by
  refine ⟨?_, ?_, ?_, ?_, ?_, ?_, ?_⟩
  · intro h
    unfold enable_script
    rw [if_neg h]
  · intro h
    unfold disable_script
    rw [if_neg h]
  · intro h
    unfold enable_script at h ⊢
    by_cases hmem : (name ++ ".lua") ∈ (luaDirs fs version).disabled
    · rw [if_pos hmem] at h ⊢
      cases moveOk with
      | false => simp at h
      | true =>
          simp [luaDirs_setLuaDirs, mem_addFile_self, not_mem_removeFile_self]
    · rw [if_neg hmem] at h
      simp at h
  · intro h
    unfold disable_script at h ⊢
    by_cases hmem : (name ++ ".lua") ∈ (luaDirs fs version).scripts
    · rw [if_pos hmem] at h ⊢
      cases moveOk with
      | false => simp at h
      | true =>
          simp [luaDirs_setLuaDirs, mem_addFile_self, not_mem_removeFile_self]
    · rw [if_neg hmem] at h
      simp at h
  · intro b
    exact ⟨mem_scripts_listing _ b, mem_scripts_listing _ b⟩
  · exact pairwise_scripts_listing _
  · exact pairwise_scripts_listing _

/-- Witness for C9 at concrete inputs: enabling / disabling a missing
script fails and changes nothing; a successful enable / disable moves the
file; listings of a small directory behave as characterised. -/
theorem c9_witness :
    enable_script ⟨⟨[], []⟩, ⟨[], []⟩⟩ "c" "v1" true
      = (false, ⟨⟨[], []⟩, ⟨[], []⟩⟩)
    ∧ disable_script ⟨⟨[], []⟩, ⟨[], []⟩⟩ "c" "v1" true
      = (false, ⟨⟨[], []⟩, ⟨[], []⟩⟩)
    ∧ (("b" ++ ".lua")
        ∈ (luaDirs (enable_script ⟨⟨[], ["b.lua"]⟩, ⟨[], []⟩⟩
            "b" "v1" true).2 "v1").scripts
      ∧ ("b" ++ ".lua")
        ∉ (luaDirs (enable_script ⟨⟨[], ["b.lua"]⟩, ⟨[], []⟩⟩
            "b" "v1" true).2 "v1").disabled)
    ∧ (("a" ++ ".lua")
        ∈ (luaDirs (disable_script ⟨⟨["a.lua"], []⟩, ⟨[], []⟩⟩
            "a" "v1" true).2 "v1").disabled
      ∧ ("a" ++ ".lua")
        ∉ (luaDirs (disable_script ⟨⟨["a.lua"], []⟩, ⟨[], []⟩⟩
            "a" "v1" true).2 "v1").scripts)
    ∧ (("a" ∈ (get_scripts ⟨⟨["b.lua", "a.lua", "x.txt"], ["c.lua"]⟩, ⟨[], []⟩⟩
          "v1").1
        ↔ ("a" ++ ".lua")
          ∈ (luaDirs ⟨⟨["b.lua", "a.lua", "x.txt"], ["c.lua"]⟩, ⟨[], []⟩⟩
              "v1").scripts)
      ∧ ("a" ∈ (get_scripts ⟨⟨["b.lua", "a.lua", "x.txt"], ["c.lua"]⟩, ⟨[], []⟩⟩
          "v1").2
        ↔ ("a" ++ ".lua")
          ∈ (luaDirs ⟨⟨["b.lua", "a.lua", "x.txt"], ["c.lua"]⟩, ⟨[], []⟩⟩
              "v1").disabled))
    ∧ (get_scripts ⟨⟨["b.lua", "a.lua", "x.txt"], ["c.lua"]⟩, ⟨[], []⟩⟩
        "v1").1.Pairwise
        (fun a b => strLe (a ++ ".lua") (b ++ ".lua") = true) :=
  ⟨(c9_script_toggle ⟨⟨[], []⟩, ⟨[], []⟩⟩ "c" "v1" true).1 (by decide),
   (c9_script_toggle ⟨⟨[], []⟩, ⟨[], []⟩⟩ "c" "v1" true).2.1 (by decide),
   (c9_script_toggle ⟨⟨[], ["b.lua"]⟩, ⟨[], []⟩⟩ "b" "v1" true).2.2.1 rfl,
   (c9_script_toggle ⟨⟨["a.lua"], []⟩, ⟨[], []⟩⟩ "a" "v1" true).2.2.2.1 rfl,
   (c9_script_toggle ⟨⟨["b.lua", "a.lua", "x.txt"], ["c.lua"]⟩, ⟨[], []⟩⟩
      "z" "v1" true).2.2.2.2.1 "a",
   ((c9_script_toggle ⟨⟨["b.lua", "a.lua", "x.txt"], ["c.lua"]⟩, ⟨[], []⟩⟩
      "z" "v1" true).2.2.2.2.2).1⟩

/-- Counterexample to C3: the claim asserts that the empty-mapping result
of a malformed read is not stored in the cache and that the next read of
the same unchanged file retries parsing.  In the code,
`_get_settings_with_cache` stores the `{}` produced by the failed parse in
`_settings_cache` together with the file's mtime, so the second read of
the unchanged malformed file serves the cached empty mapping without
invoking `_read_json_safely` again: here, after one read of a malformed
file (mtime 5), the cache holds `{}` and the second read has
`didRead = false`. -/
theorem c3_counterexample :
    (getSettingsWithCache
      (getSettingsWithCache
        ⟨"A", [("A/YimMenu/settings.json", (.bad, 5))], ⟨none, none, 0, 0⟩⟩
        "v1").world "v1").didRead = false
    ∧ cacheGet
        (getSettingsWithCache
          ⟨"A", [("A/YimMenu/settings.json", (.bad, 5))], ⟨none, none, 0, 0⟩⟩
          "v1").world.sm .v1 = some (.obj []) :=
  ⟨rfl, rfl⟩

/-- C3 (amended): a read that encounters a malformed settings file yields
the empty mapping for that read (the warning branch of
`_read_json_safely`), and the empty mapping IS stored in the cache entry
together with the file's mtime; the next read of the same unchanged file
serves the cached empty mapping without re-parsing. -/
theorem c3_malformed_read_amended (w : World) (ver : String) (t : Nat)
    (hbad : fsLookup w.fs (get_file_path w.appdata ver) = some (.bad, t))
    (hcache : cacheGet w.sm (normKey ver) = none) :
    (getSettingsWithCache w ver).doc = .obj []
    ∧ cacheGet (getSettingsWithCache w ver).world.sm (normKey ver)
        = some (.obj [])
    ∧ lmGet (getSettingsWithCache w ver).world.sm (normKey ver) = t
    ∧ (getSettingsWithCache (getSettingsWithCache w ver).world ver).didRead
        = false
    ∧ (getSettingsWithCache (getSettingsWithCache w ver).world ver).doc
        = .obj [] := by
  have h1 : getSettingsWithCache w ver
      = ⟨.obj [],
         { w with sm := cacheSet (lmSet w.sm (normKey ver) t) (normKey ver)
                    (some (.obj [])) }, true⟩ := by
    unfold getSettingsWithCache readJsonSafely
    simp only [hbad, hcache]
  rw [h1]
  refine ⟨rfl, by simp, by simp, ?_, ?_⟩
  · unfold getSettingsWithCache
    simp [hbad]
  · unfold getSettingsWithCache
    simp [hbad]

/-- Witness for the amended C3 at a concrete input: a malformed file with
mtime 9, empty cache. -/
theorem c3_witness :
    (getSettingsWithCache
      ⟨"B", [("B/YimMenu/settings.json", (.bad, 9))], ⟨none, none, 0, 0⟩⟩
      "v1").doc = .obj []
    ∧ cacheGet (getSettingsWithCache
        ⟨"B", [("B/YimMenu/settings.json", (.bad, 9))], ⟨none, none, 0, 0⟩⟩
        "v1").world.sm (normKey "v1") = some (.obj [])
    ∧ lmGet (getSettingsWithCache
        ⟨"B", [("B/YimMenu/settings.json", (.bad, 9))], ⟨none, none, 0, 0⟩⟩
        "v1").world.sm (normKey "v1") = 9
    ∧ (getSettingsWithCache (getSettingsWithCache
        ⟨"B", [("B/YimMenu/settings.json", (.bad, 9))], ⟨none, none, 0, 0⟩⟩
        "v1").world "v1").didRead = false
    ∧ (getSettingsWithCache (getSettingsWithCache
        ⟨"B", [("B/YimMenu/settings.json", (.bad, 9))], ⟨none, none, 0, 0⟩⟩
        "v1").world "v1").doc = .obj [] :=
  c3_malformed_read_amended
    ⟨"B", [("B/YimMenu/settings.json", (.bad, 9))], ⟨none, none, 0, 0⟩⟩
    "v1" 9 rfl rfl

/-- C4: a read serves the cached document without re-reading the file iff
the file's current mtime equals the recorded one (given a populated cache
entry and an existing file); on a cache hit the served document is exactly
the cached one and the state is untouched; an externally modified file
(mtime differing from the recorded one) is re-read, so the read reflects
the new on-disk content; a missing file yields an empty mapping without
populating the cache. -/
theorem c4_mtime_cache_invariant (w : World) (ver : String) (doc : JVal)
    (c : FileContent) (t : Nat) (j : JVal) :
    (cacheGet w.sm (normKey ver) = some doc →
      fsLookup w.fs (get_file_path w.appdata ver) = some (c, t) →
      ((getSettingsWithCache w ver).didRead = false
        ↔ lmGet w.sm (normKey ver) = t))
    ∧ (cacheGet w.sm (normKey ver) = some doc →
      fsLookup w.fs (get_file_path w.appdata ver) = some (c, t) →
      lmGet w.sm (normKey ver) = t →
      getSettingsWithCache w ver = ⟨doc, w, false⟩)
    ∧ (fsLookup w.fs (get_file_path w.appdata ver) = some (.good j, t) →
      lmGet w.sm (normKey ver) ≠ t →
      (getSettingsWithCache w ver).doc = j)
    ∧ (fsLookup w.fs (get_file_path w.appdata ver) = none →
      getSettingsWithCache w ver = ⟨.obj [], w, false⟩) := by
  refine ⟨?_, ?_, ?_, ?_⟩
  · intro hc hf
    unfold getSettingsWithCache
    simp only [hf, hc]
    by_cases hl : lmGet w.sm (normKey ver) = t
    · simp [hl]
    · simp [hl]
  · intro hc hf hl
    unfold getSettingsWithCache
    simp only [hf, hc]
    simp [hl]
  · intro hf hl
    unfold getSettingsWithCache readJsonSafely
    simp only [hf]
    cases hcc : cacheGet w.sm (normKey ver) with
    | none => simp
    | some cached => simp [hl]
  · intro hf
    unfold getSettingsWithCache
    simp only [hf]

/-- Witness for C4 at concrete inputs: a valid cache entry is served
without re-reading; a stale recorded mtime causes a re-read that reflects
the on-disk content; a missing file yields `{}` with the state
untouched. -/
theorem c4_witness :
    ((getSettingsWithCache
        ⟨"A", [("A/YimMenu/settings.json", (.good (.obj [("x", .num 1)]), 3))],
         ⟨some (.obj [("x", .num 1)]), none, 3, 0⟩⟩ "v1").didRead = false
      ↔ lmGet (⟨some (.obj [("x", .num 1)]), none, 3, 0⟩ : SMState)
          (normKey "v1") = 3)
    ∧ getSettingsWithCache
        ⟨"A", [("A/YimMenu/settings.json", (.good (.obj [("x", .num 1)]), 3))],
         ⟨some (.obj [("x", .num 1)]), none, 3, 0⟩⟩ "v1"
      = ⟨.obj [("x", .num 1)],
         ⟨"A", [("A/YimMenu/settings.json", (.good (.obj [("x", .num 1)]), 3))],
          ⟨some (.obj [("x", .num 1)]), none, 3, 0⟩⟩, false⟩
    ∧ (getSettingsWithCache
        ⟨"A", [("A/YimMenu/settings.json", (.good (.obj [("x", .num 1)]), 3))],
         ⟨some (.obj [("y", .num 2)]), none, 2, 0⟩⟩ "v1").doc
      = .obj [("x", .num 1)]
    ∧ getSettingsWithCache ⟨"A", [], ⟨none, none, 0, 0⟩⟩ "v1"
      = ⟨.obj [], ⟨"A", [], ⟨none, none, 0, 0⟩⟩, false⟩ :=
  ⟨(c4_mtime_cache_invariant
      ⟨"A", [("A/YimMenu/settings.json", (.good (.obj [("x", .num 1)]), 3))],
       ⟨some (.obj [("x", .num 1)]), none, 3, 0⟩⟩ "v1" (.obj [("x", .num 1)])
      (.good (.obj [("x", .num 1)])) 3 (.obj [("x", .num 1)])).1 rfl rfl,
   (c4_mtime_cache_invariant
      ⟨"A", [("A/YimMenu/settings.json", (.good (.obj [("x", .num 1)]), 3))],
       ⟨some (.obj [("x", .num 1)]), none, 3, 0⟩⟩ "v1" (.obj [("x", .num 1)])
      (.good (.obj [("x", .num 1)])) 3 (.obj [("x", .num 1)])).2.1 rfl rfl rfl,
   (c4_mtime_cache_invariant
      ⟨"A", [("A/YimMenu/settings.json", (.good (.obj [("x", .num 1)]), 3))],
       ⟨some (.obj [("y", .num 2)]), none, 2, 0⟩⟩ "v1" (.obj [("y", .num 2)])
      (.good (.obj [("x", .num 1)])) 3 (.obj [("x", .num 1)])).2.2.1 rfl
     (by decide),
   (c4_mtime_cache_invariant ⟨"A", [], ⟨none, none, 0, 0⟩⟩ "v1" .null
      .bad 0 .null).2.2.2 rfl⟩

/-- C6: `ensure_settings_file_exists` is a no-op when a settings file
already exists — even a malformed one — and, when no file exists and the
write succeeds, writes exactly the fixed default document
`{"lua": {"auto_reload_scripts": false, "auto_reload_changed_scripts":
false}, "debug": {"external_console": false}, "theme":
{"light_mode": false}}`. -/
theorem c6_ensure_settings_file (w : World) (ver : String) (writeOk : Bool)
    (newMtime : Nat) (e : FileContent × Nat) :
    (fsLookup w.fs (get_file_path w.appdata ver) = some e →
      ensure_settings_file_exists w ver writeOk newMtime = w)
    ∧ (fsLookup w.fs (get_file_path w.appdata ver) = none →
      fsLookup (ensure_settings_file_exists w ver true newMtime).fs
          (get_file_path w.appdata ver)
        = some (.good default_settings, newMtime)) := by
  constructor
  · intro hf
    unfold ensure_settings_file_exists
    simp only [hf]
  · intro hf
    unfold ensure_settings_file_exists
    simp only [hf, writeJsonSafely]
    simp

/-- Witness for C6 at concrete inputs: a malformed existing file is left
alone; a missing file receives the default document. -/
theorem c6_witness :
    ensure_settings_file_exists
      ⟨"A", [("A/YimMenu/settings.json", (.bad, 2))], ⟨none, none, 0, 0⟩⟩
      "v1" true 5
      = ⟨"A", [("A/YimMenu/settings.json", (.bad, 2))], ⟨none, none, 0, 0⟩⟩
    ∧ fsLookup (ensure_settings_file_exists ⟨"A", [], ⟨none, none, 0, 0⟩⟩
        "v1" true 5).fs (get_file_path "A" "v1")
      = some (.good default_settings, 5) :=
  ⟨(c6_ensure_settings_file
      ⟨"A", [("A/YimMenu/settings.json", (.bad, 2))], ⟨none, none, 0, 0⟩⟩
      "v1" true 5 (.bad, 2)).1 rfl,
   (c6_ensure_settings_file ⟨"A", [], ⟨none, none, 0, 0⟩⟩ "v1" true 5
      (.bad, 0)).2 rfl⟩

/-- C10: when the persist step of `set_setting` fails, the call returns
`False` and the on-disk document is unchanged, but the in-memory cache
entry already holds the document mutated with the new leaf value, so a
subsequent `get_setting` of the same key path (file mtime unchanged)
returns the new value even though the disk still holds the old one. -/
theorem c10_failed_write_leaves_mutated_cache (w : World) (P : String)
    (V : JVal) (ver : String) (mt : Nat) (newData d : JVal)
    (e : FileContent × Nat)
    (hfile : fsLookup w.fs (get_file_path w.appdata ver) = some e)
    (hset : setPath (getSettingsWithCache w ver).doc (splitKeyPath P) V
              = some newData) :
    (set_setting w P V ver false mt).1 = false
    ∧ (set_setting w P V ver false mt).2.fs = w.fs
    ∧ cacheGet (set_setting w P V ver false mt).2.sm (normKey ver)
        = some newData
    ∧ (get_setting (set_setting w P V ver false mt).2 P d ver).1 = V := by
  obtain ⟨c, t⟩ := e
  have hlm := lmGet_after_read w ver c t hfile
  unfold set_setting
  simp only [hset, hfile, writeJsonSafely]
  refine ⟨by trivial, by simp, by simp, ?_⟩
  exact get_after_failed_write _ ver newData P V d c t
    (by rw [getSettingsWithCache_fs, getSettingsWithCache_appdata]; exact hfile)
    hlm (setPath_sound _ _ _ _ hset)

/-- C8: a write whose key path meets a non-mapping scalar at an
intermediate segment behaves exactly as if that scalar had first been
replaced by a fresh empty mapping (the `d[key] = {}` branch); in
particular, on a document `{"lua": true}`, setting
`"lua.auto_reload_scripts"` to `false` succeeds and persists
`{"lua": {"auto_reload_scripts": false}}`. -/
theorem c8_scalar_intermediate_replaced :
    (∀ (kvs : List (String × JVal)) (k k2 : String) (ks : List String)
        (u v : JVal),
        assocLookup kvs k = some u → u.isObj = false →
        setPath (.obj kvs) (k :: k2 :: ks) v
          = setPath (.obj (assocSet kvs k (.obj []))) (k :: k2 :: ks) v)
    ∧ (∀ (w : World) (ver : String) (mt : Nat),
        (getSettingsWithCache w ver).doc = .obj [("lua", .bool true)] →
        (set_setting w "lua.auto_reload_scripts" (.bool false) ver true mt).1
          = true
        ∧ fsLookup
            (set_setting w "lua.auto_reload_scripts" (.bool false) ver
              true mt).2.fs (get_file_path w.appdata ver)
          = some (.good
              (.obj [("lua", .obj [("auto_reload_scripts", .bool false)])]),
              mt)) := by
  constructor
  · intro kvs k k2 ks u v hlk hu
    have hchild : childFor kvs k = .obj [] := by
      unfold childFor
      rw [hlk]
      cases u <;> simp [JVal.isObj] at hu ⊢
    have hchild2 : childFor (assocSet kvs k (.obj [])) k = .obj [] := by
      unfold childFor
      rw [assocLookup_assocSet_self]
    show setPath (.obj kvs) (k :: k2 :: ks) v
      = setPath (.obj (assocSet kvs k (.obj []))) (k :: k2 :: ks) v
    simp only [setPath, hchild, hchild2]
    cases hsp : setPath (.obj []) (k2 :: ks) v with
    | none => rfl
    | some c2 => simp [assocSet_assocSet]
  · intro w ver mt hdoc
    have hsp : setPath (.obj [("lua", .bool true)])
        (splitKeyPath "lua.auto_reload_scripts") (.bool false)
        = some (.obj [("lua", .obj [("auto_reload_scripts", .bool false)])]) :=
      rfl
    unfold set_setting
    simp only [hdoc, hsp, writeJsonSafely]
    exact ⟨by trivial, by simp⟩

/-- Witness for C8 at concrete inputs: the general part applied to the
document `{"lua": true}` and the path `["lua", "auto_reload_scripts"]`,
and the end-to-end part applied on a world whose settings file holds
`{"lua": true}`. -/
theorem c8_witness :
    setPath (.obj [("lua", .bool true)]) ["lua", "auto_reload_scripts"]
        (.bool false)
      = setPath (.obj (assocSet [("lua", .bool true)] "lua" (.obj [])))
          ["lua", "auto_reload_scripts"] (.bool false)
    ∧ (set_setting
        ⟨"A", [("A/YimMenu/settings.json", (.good (.obj [("lua", .bool true)]), 3))],
         ⟨none, none, 0, 0⟩⟩
        "lua.auto_reload_scripts" (.bool false) "v1" true 8).1 = true
    ∧ fsLookup (set_setting
        ⟨"A", [("A/YimMenu/settings.json", (.good (.obj [("lua", .bool true)]), 3))],
         ⟨none, none, 0, 0⟩⟩
        "lua.auto_reload_scripts" (.bool false) "v1" true 8).2.fs
        (get_file_path "A" "v1")
      = some (.good (.obj [("lua", .obj [("auto_reload_scripts", .bool false)])]), 8) := by
  have h2 := (c8_scalar_intermediate_replaced.2
    ⟨"A", [("A/YimMenu/settings.json", (.good (.obj [("lua", .bool true)]), 3))],
     ⟨none, none, 0, 0⟩⟩ "v1" 8 rfl)
  exact ⟨c8_scalar_intermediate_replaced.1 [("lua", .bool true)] "lua"
    "auto_reload_scripts" [] (.bool true) (.bool false) rfl rfl,
    h2.1, h2.2⟩

/-- C7: `sync_auto_reload_settings` with equal source and target is a
no-op returning success; with distinct installations and a successful
write it persists for the target a document whose
`lua.auto_reload_changed_scripts` holds exactly the source's value, while
every key path that neither extends nor is extended by
`["lua", "auto_reload_changed_scripts"]` resolves as it did in the
target's previous document. -/
theorem c7_sync_auto_reload (w : World) (src tgt : String) (writeOk : Bool)
    (mt : Nat) :
    sync_auto_reload_settings w src src writeOk mt = (true, w)
    ∧ (normKey src ≠ normKey tgt →
       (sync_auto_reload_settings w src tgt true mt).1 = true →
       ∃ D, fsLookup (sync_auto_reload_settings w src tgt true mt).2.fs
              (get_file_path w.appdata tgt) = some (.good D, mt)
         ∧ lookupPath D ["lua", "auto_reload_changed_scripts"]
             = some (get_auto_reload_changed_scripts w src).1
         ∧ ∀ ks : List String,
             listLeads ["lua", "auto_reload_changed_scripts"] ks = false →
             listLeads ks ["lua", "auto_reload_changed_scripts"] = false →
             lookupPath D ks
               = lookupPath (getSettingsWithCache w tgt).doc ks) := by
  constructor
  · unfold sync_auto_reload_settings
    simp
  · intro hk hr
    have hst : src ≠ tgt := fun e => hk (by rw [e])
    have hw1 : (get_auto_reload_changed_scripts w src).2
        = (getSettingsWithCache w src).world := get_setting_snd w _ _ src
    have hfr2 := getSettingsWithCache_cache_frame w src (normKey tgt)
      (Ne.symm hk)
    unfold sync_auto_reload_settings at hr ⊢
    rw [if_neg hst] at hr ⊢
    rw [hw1] at hr ⊢
    unfold set_auto_reload_changed_scripts set_setting at hr ⊢
    cases hsp : setPath
        (getSettingsWithCache (getSettingsWithCache w src).world tgt).doc
        (splitKeyPath "lua.auto_reload_changed_scripts")
        (get_auto_reload_changed_scripts w src).1 with
    | none =>
        simp only [hsp] at hr
        simp at hr
    | some D =>
        simp only [hsp, writeJsonSafely] at hr ⊢
        have hdoc : (getSettingsWithCache (getSettingsWithCache w src).world
              tgt).doc
            = (getSettingsWithCache w tgt).doc := by
          apply getSettingsWithCache_doc_congr
          · exact getSettingsWithCache_appdata w src
          · rw [getSettingsWithCache_fs]
          · exact hfr2.1
          · exact hfr2.2
        refine ⟨D, by simp, ?_, ?_⟩
        · exact setPath_sound _ _ _ _ hsp
        · intro ks h1 h2
          rw [setPath_frame _ _ _ _ ks hsp h1 h2, hdoc]

/-- Witness for C7 at a concrete input: syncing `"v1"` to itself is a
no-op; syncing `"v1"` (flag `true`) into `"v2"` (whose document carries a
`theme` key and an unrelated `lua.x` key) persists the flag and leaves
the path `["theme", "light_mode"]` resolving as before. -/
theorem c7_witness :
    sync_auto_reload_settings
      ⟨"A",
       [("A/YimMenu/settings.json",
         (.good (.obj [("lua", .obj [("auto_reload_changed_scripts", .bool true)])]), 1)),
        ("A/YimMenuV2/settings.json",
         (.good (.obj [("theme", .obj [("light_mode", .bool true)]),
                       ("lua", .obj [("x", .num 7)])]), 2))],
       ⟨none, none, 0, 0⟩⟩ "v1" "v1" true 9
      = (true,
         ⟨"A",
          [("A/YimMenu/settings.json",
            (.good (.obj [("lua", .obj [("auto_reload_changed_scripts", .bool true)])]), 1)),
           ("A/YimMenuV2/settings.json",
            (.good (.obj [("theme", .obj [("light_mode", .bool true)]),
                          ("lua", .obj [("x", .num 7)])]), 2))],
          ⟨none, none, 0, 0⟩⟩)
    ∧ ∃ D, fsLookup (sync_auto_reload_settings
          ⟨"A",
           [("A/YimMenu/settings.json",
             (.good (.obj [("lua", .obj [("auto_reload_changed_scripts", .bool true)])]), 1)),
            ("A/YimMenuV2/settings.json",
             (.good (.obj [("theme", .obj [("light_mode", .bool true)]),
                           ("lua", .obj [("x", .num 7)])]), 2))],
           ⟨none, none, 0, 0⟩⟩ "v1" "v2" true 9).2.fs
          (get_file_path "A" "v2") = some (.good D, 9)
        ∧ lookupPath D ["lua", "auto_reload_changed_scripts"]
            = some (get_auto_reload_changed_scripts
                ⟨"A",
                 [("A/YimMenu/settings.json",
                   (.good (.obj [("lua", .obj [("auto_reload_changed_scripts", .bool true)])]), 1)),
                  ("A/YimMenuV2/settings.json",
                   (.good (.obj [("theme", .obj [("light_mode", .bool true)]),
                                 ("lua", .obj [("x", .num 7)])]), 2))],
                 ⟨none, none, 0, 0⟩⟩ "v1").1
        ∧ ∀ ks : List String,
            listLeads ["lua", "auto_reload_changed_scripts"] ks = false →
            listLeads ks ["lua", "auto_reload_changed_scripts"] = false →
            lookupPath D ks
              = lookupPath (getSettingsWithCache
                  ⟨"A",
                   [("A/YimMenu/settings.json",
                     (.good (.obj [("lua", .obj [("auto_reload_changed_scripts", .bool true)])]), 1)),
                    ("A/YimMenuV2/settings.json",
                     (.good (.obj [("theme", .obj [("light_mode", .bool true)]),
                                   ("lua", .obj [("x", .num 7)])]), 2))],
                   ⟨none, none, 0, 0⟩⟩ "v2").doc ks :=
  ⟨(c7_sync_auto_reload
      ⟨"A",
       [("A/YimMenu/settings.json",
         (.good (.obj [("lua", .obj [("auto_reload_changed_scripts", .bool true)])]), 1)),
        ("A/YimMenuV2/settings.json",
         (.good (.obj [("theme", .obj [("light_mode", .bool true)]),
                       ("lua", .obj [("x", .num 7)])]), 2))],
       ⟨none, none, 0, 0⟩⟩ "v1" "v2" true 9).1,
   (c7_sync_auto_reload
      ⟨"A",
       [("A/YimMenu/settings.json",
         (.good (.obj [("lua", .obj [("auto_reload_changed_scripts", .bool true)])]), 1)),
        ("A/YimMenuV2/settings.json",
         (.good (.obj [("theme", .obj [("light_mode", .bool true)]),
                       ("lua", .obj [("x", .num 7)])]), 2))],
       ⟨none, none, 0, 0⟩⟩ "v1" "v2" true 9).2 (by decide) rfl⟩

/-- Witness for C10 at a concrete input: the file holds `{"a": 1}`, the
write of `"a"` to `2` fails, the disk is unchanged, yet the cache holds
`{"a": 2}` and a read of `"a"` returns `2`. -/
theorem c10_witness :
    fsLookup (⟨"A", [("A/YimMenu/settings.json",
          (.good (.obj [("a", .num 1)]), 4))], ⟨none, none, 0, 0⟩⟩ : World).fs
        (get_file_path "A" "v1")
      = some (.good (.obj [("a", .num 1)]), 4)
    ∧ (set_setting ⟨"A", [("A/YimMenu/settings.json",
          (.good (.obj [("a", .num 1)]), 4))], ⟨none, none, 0, 0⟩⟩
        "a" (.num 2) "v1" false 9).1 = false
    ∧ (set_setting ⟨"A", [("A/YimMenu/settings.json",
          (.good (.obj [("a", .num 1)]), 4))], ⟨none, none, 0, 0⟩⟩
        "a" (.num 2) "v1" false 9).2.fs
      = [("A/YimMenu/settings.json", (.good (.obj [("a", .num 1)]), 4))]
    ∧ (get_setting (set_setting ⟨"A", [("A/YimMenu/settings.json",
          (.good (.obj [("a", .num 1)]), 4))], ⟨none, none, 0, 0⟩⟩
        "a" (.num 2) "v1" false 9).2 "a" .null "v1").1 = .num 2 := by
  have h := c10_failed_write_leaves_mutated_cache
    ⟨"A", [("A/YimMenu/settings.json", (.good (.obj [("a", .num 1)]), 4))],
     ⟨none, none, 0, 0⟩⟩
    "a" (.num 2) "v1" 9 (.obj [("a", .num 2)]) .null
    (.good (.obj [("a", .num 1)]), 4) rfl rfl
  exact ⟨rfl, h.1, h.2.1, h.2.2.2⟩

end YMU
